import Mathlib

/-!
Shallow embedding of the Autotrader backend's trade-lifecycle decision
engine (app/services/trading.py, app/routers/trades.py), its market-data
fetcher (app/utils/helpers.py) and its job scheduler (app/scheduler.py).
Prices are modelled as exact rationals; pandas/yfinance data frames are
modelled as lists of candles.
-/

namespace Autotrader

/-- Python `round(x * 100)` half-to-even on an exact rational, as used by
`round(value, 2)`. -/
def roundHalfEven (x : ℚ) : ℤ :=
  let f : ℤ := ⌊x⌋
  let r : ℚ := x - f
  if r < 1/2 then f
  else if r > 1/2 then f + 1
  else if f % 2 = 0 then f else f + 1

/-- Python `round(x, 2)` modelled on exact rationals. -/
def pyRound2 (x : ℚ) : ℚ := (roundHalfEven (x * 100) : ℚ) / 100

/-- `ewm(span=span, adjust=False).mean()` final value: the recursive form
`y0 = x0`, `y = (1-a)*y + a*x` with `a = 2/(span+1)`.  Returns 0 for an
empty series (callers guard on emptiness first). -/
def emaNoAdjustLast (span : ℕ) (closes : List ℚ) : ℚ :=
  let a : ℚ := 2 / (span + 1)
  match closes with
  | [] => 0
  | x :: xs => xs.foldl (fun y v => (1 - a) * y + a * v) x

/-- `ewm(span=span).mean()` final value with the pandas default
`adjust=True`: the normalized weighted average with weights `(1-a)^i`. -/
def emaAdjustLast (span : ℕ) (closes : List ℚ) : ℚ :=
  let a : ℚ := 2 / (span + 1)
  match closes with
  | [] => 0
  | x :: xs =>
    let nd := xs.foldl (fun (nd : ℚ × ℚ) v => ((1 - a) * nd.1 + v, (1 - a) * nd.2 + 1)) (x, 1)
    nd.1 / nd.2

/-- `is_nifty_above_50ema` (app/services/trading.py:9-15): empty download
gives `False`; otherwise compares the last close with the last value of
`Close.ewm(span=50, adjust=False).mean()`. No minimum-length guard. -/
def isNiftyAbove50Ema (closes : List ℚ) : Bool :=
  if closes.isEmpty then false
  else decide (closes.getLastD 0 > emaNoAdjustLast 50 closes)

/-- `check_stock_above_50ema` (app/services/trading.py:18-24): empty or
shorter-than-50 series gives `False`; otherwise compares the last close
with the last `adjust=False` 50-EMA value. -/
def checkStockAbove50Ema (closes : List ℚ) : Bool :=
  if closes.isEmpty || closes.length < 50 then false
  else decide (closes.getLastD 0 > emaNoAdjustLast 50 closes)

/-- One intraday 15-minute bar.  `day` is an abstract ordinal calendar day
and `tmin` the bar-open time as minutes after midnight IST; only the
columns the decision code reads (`High`, `Close`) are carried. -/
structure Candle where
  day : ℕ
  tmin : ℕ
  high : ℚ
  close : ℚ
  deriving DecidableEq, Repr

/-- A trade-record document in the `trades` collection.  Only the fields
the lifecycle code reads or writes are modelled; MongoDB `_id` is `sid`.
`checkedDate`, `buyDate` and `sellDate` are modelled as set/unset flags. -/
structure Stock where
  sid : String
  symbol : Option String
  status : String
  buyPrice : Option ℚ
  quantity : Option ℤ
  buyDate : Bool
  checkedDate : Bool
  firstCandleTime : Option ℕ
  firstCandleHigh : Option ℚ
  dayHighField : Option ℚ
  sellPrice : Option ℚ
  sellDate : Bool
  profitPct : Option ℚ
  shortlistedDate : Option String
  deriving DecidableEq, Repr

/-- `update_one({"_id": sid}, {"$set": fields})`: rewrite the first record
whose `_id` matches, leave everything else untouched. -/
def updateFirstById (f : Stock → Stock) : List Stock → String → List Stock
  | [], _ => []
  | b :: rest, tid =>
    if b.sid = tid then f b :: rest else b :: updateFirstById f rest tid

/-- Result of `evaluate_and_buy` for one record: `skip` is the `return
None` paths (no store write at all), the other two carry exactly the
fields the corresponding `$set` writes. -/
inductive EvalResult where
  | skip
  | bought (buyPrice : ℚ) (qty : ℤ) (fct : ℕ) (fch : ℚ) (dh : ℚ)
  | notTriggered (fct : ℕ) (fch : ℚ) (dh : ℚ)
  deriving DecidableEq, Repr

/-- The 09:15–09:30 window mask (inclusive start, exclusive end),
trades.py:323-327. -/
def pick915 (cs : List Candle) : List Candle :=
  cs.filter (fun c => decide (555 ≤ c.tmin) && decide (c.tmin < 570))

/-- The 09:00–10:00 fallback window mask (both ends inclusive),
trades.py:331-335. -/
def pickMarket (cs : List Candle) : List Candle :=
  cs.filter (fun c => decide (540 ≤ c.tmin) && decide (c.tmin ≤ 600))

/-- Reference-candle selection: first bar of the 09:15 window, else the
earliest bar of the fallback window. -/
def selectRef (cs : List Candle) : Option Candle :=
  match (pick915 cs).head? with
  | some c => some c
  | none => (pickMarket cs).head?

/-- `data_today["High"].max()` over a nonempty frame. -/
def dayHigh : List Candle → ℚ
  | [] => 0
  | c :: rest => rest.foldl (fun m x => max m x.high) c.high

/-- Outcome of the per-symbol intraday fetch as seen by
`evaluate_and_buy`: usable rows, a `None`/empty frame, or an unexpected
exception raised while processing the record. -/
inductive IntradayOutcome where
  | data (cs : List Candle)
  | nodata
  | fault
  deriving DecidableEq, Repr

/-- `evaluate_and_buy` (trades.py:303-413) as a pure decision function.
`cap` is `settings.TRADE_CAP`.  A falsy symbol, a missing/empty frame, a
caught per-record exception, an empty selection window, a zero entry
price (Python `ZeroDivisionError`, caught) and a zero quantity all land
on `skip` (`return None`, no write). -/
def evaluateAndBuy (cap : ℚ) (s : Stock) (out : IntradayOutcome) : EvalResult :=
  match s.symbol with
  | none => .skip
  | some sym =>
    if sym = "" then .skip
    else
      match out with
      | .fault => .skip
      | .nodata => .skip
      | .data cs =>
        if cs.isEmpty then .skip
        else
          match selectRef cs with
          | none => .skip
          | some c =>
            let firstHigh := c.high
            let dh := dayHigh cs
            if dh > firstHigh then
              let buyPrice := pyRound2 (firstHigh * (1002/1000))
              if buyPrice = 0 then .skip
              else
                let qty : ℤ := ⌊cap / buyPrice⌋
                if qty = 0 then .skip
                else .bought buyPrice qty c.tmin firstHigh dh
            else .notTriggered c.tmin firstHigh dh

/-- Apply the `$set` document of an `EvalResult` to a stored record
(trades.py:365-383 for the buy branch, 392-405 for the not-triggered
branch); `skip` writes nothing. -/
def applyEval (b : Stock) : EvalResult → Stock
  | .skip => b
  | .bought p q t fh dh =>
    { b with status := "bought", buyPrice := some p, quantity := some q,
             buyDate := true, checkedDate := true,
             firstCandleTime := some t, firstCandleHigh := some fh,
             dayHighField := some dh }
  | .notTriggered t fh dh =>
    { b with status := "not_triggered", checkedDate := true,
             firstCandleTime := some t, firstCandleHigh := some fh,
             dayHighField := some dh }

/-- The fetch events `evaluate_and_buy` issues for one record: exactly
one intraday fetch unless the symbol is falsy. -/
def fetchesOf (s : Stock) : List String :=
  match s.symbol with
  | none => []
  | some sym => if sym = "" then [] else [sym]

/-- The intraday outcome for a record under a given market environment
`env` (keyed by symbol); a record with a falsy symbol never reaches the
fetch. -/
def outcomeFor (env : String → IntradayOutcome) (s : Stock) : IntradayOutcome :=
  match s.symbol with
  | none => .nodata
  | some sym => if sym = "" then .nodata else env sym

/-- Observable result of one `buy_shortlisted` run: the final
collection, the symbols of the two summary lists, and the issued
per-symbol intraday fetches. -/
structure BuyRun where
  store : List Stock
  boughtSyms : List (Option String)
  ntSyms : List (Option String)
  fetchLog : List String
  deriving Repr

/-- The record loop of `buy_shortlisted` (trades.py:287-294): evaluate
each shortlisted snapshot, apply its write to the live collection, and
sort the record into the `bought` or `not_triggered` summary list. -/
def buyGo (cap : ℚ) (env : String → IntradayOutcome) :
    List Stock → List Stock → BuyRun
  | [], st => ⟨st, [], [], []⟩
  | s :: rest, st =>
    let r := evaluateAndBuy cap s (outcomeFor env s)
    let st' :=
      match r with
      | .skip => st
      | _ => updateFirstById (fun b => applyEval b r) st s.sid
    let tail := buyGo cap env rest st'
    match r with
    | .bought _ _ _ _ _ =>
      ⟨tail.store, s.symbol :: tail.boughtSyms, tail.ntSyms,
        fetchesOf s ++ tail.fetchLog⟩
    | _ =>
      ⟨tail.store, tail.boughtSyms, s.symbol :: tail.ntSyms,
        fetchesOf s ++ tail.fetchLog⟩

/-- The records one `buy_shortlisted` run processes:
`find({"status": "shortlisted"}).to_list(100)`. -/
def shortlistBatch (store : List Stock) : List Stock :=
  (store.filter (fun s => s.status = "shortlisted")).take 100

/-- `buy_shortlisted` (trades.py:272-300).  Note: no index-EMA re-check
appears anywhere in this operation. -/
def buyShortlisted (cap : ℚ) (env : String → IntradayOutcome)
    (store : List Stock) : BuyRun :=
  buyGo cap env (shortlistBatch store) store

/-- Outcome of the ~6-month daily-close download used by
`check_stock_for_to_sell`: the `Close` column (possibly empty), or an
exception raised by the download. -/
inductive DailyOutcome where
  | data (closes : List ℚ)
  | fault
  deriving DecidableEq, Repr

/-- `check_stock_for_to_sell` (trading.py:70-92).  The 50-EMA here is
`Close.ewm(span=50).mean()`, i.e. pandas' default `adjust=True`.  A
`buy_price` of exactly 0 makes `up_percent` a division by zero, which
this function does not catch (`Except.error`); a download exception is
likewise uncaught. -/
def checkStockForToSell (buyPrice : Option ℚ) (out : DailyOutcome) :
    Except Unit Bool :=
  match out with
  | .fault => .error ()
  | .data closes =>
    if closes.isEmpty then .ok false
    else
      match buyPrice with
      | none => .ok false
      | some bp =>
        if bp = 0 then .error ()
        else
          let lastClose := closes.getLastD 0
          let ema := emaAdjustLast 50 closes
          let upPercent := (lastClose - bp) / bp * 100
          .ok (decide (lastClose < ema) || decide (upPercent ≥ 6))

/-- The per-record step of `mark_to_sell_eod`: `stock["symbol"]` raises
`KeyError` when the field is missing, then the check itself runs. -/
def markCheck (env : String → DailyOutcome) (s : Stock) : Except Unit Bool :=
  match s.symbol with
  | none => .error ()
  | some sym => checkStockForToSell s.buyPrice (env sym)

/-- The `$set` of `mark_to_sell_eod` (trading.py:100-102). -/
def setToSell (b : Stock) : Stock := { b with status := "to_sell" }

/-- The record loop of `mark_to_sell_eod` (trading.py:98-103).  There is
no per-record `try`, so the first uncaught fault aborts the loop; the
second component reports whether the batch aborted. -/
def markGo (env : String → DailyOutcome) :
    List Stock → List Stock → List Stock × Bool
  | [], st => (st, false)
  | s :: rest, st =>
    match markCheck env s with
    | .error _ => (st, true)
    | .ok true => markGo env rest (updateFirstById setToSell st s.sid)
    | .ok false => markGo env rest st

/-- The records one `mark_to_sell_eod` run processes:
`find({"status": "bought"}).to_list(100)`. -/
def boughtBatch (store : List Stock) : List Stock :=
  (store.filter (fun s => s.status = "bought")).take 100

/-- `mark_to_sell_eod` (trading.py:95-103). -/
def markToSellEod (env : String → DailyOutcome) (store : List Stock) :
    List Stock × Bool :=
  markGo env (boughtBatch store) store

/-- Outcome of the latest-price fetch used by `sell_stock` (1-minute
intraday falling back to last daily close): a usable last close, a frame
empty under both sources, or an exception. -/
inductive PriceOutcome where
  | price (p : ℚ)
  | nodata
  | fault
  deriving DecidableEq, Repr

/-- The `$set` of `sell_stock` (trading.py:119-126). -/
def setSold (p : ℚ) (profit : Option ℚ) (b : Stock) : Stock :=
  { b with status := "sold", sellPrice := some p, sellDate := true,
           profitPct := profit }

/-- `sell_stock` (trading.py:106-129) acting on the collection.  Returns
the updated collection and whether an uncaught exception escaped.  On a
missing symbol (`KeyError`) or a fetch exception nothing is written; on
empty data the record is left `to_sell` (`return None`); otherwise the
record is marked sold, and when `buy_price` is falsy `profit_pct` is
`None` and the subsequent `f"{profit_pct:.2f}"` raises — after the
update has already been written. -/
def sellStock (out : PriceOutcome) (s : Stock) (st : List Stock) :
    List Stock × Bool :=
  match s.symbol with
  | none => (st, true)
  | some _ =>
    match out with
    | .fault => (st, true)
    | .nodata => (st, false)
    | .price p =>
      let bp := s.buyPrice.getD 0
      let profit : Option ℚ := if bp = 0 then none else some ((p - bp) / bp * 100)
      let st' := updateFirstById (setSold p profit) st s.sid
      (st', profit.isNone)

/-- The record loop of `execute_sell_next_day` (trading.py:132-136): no
per-record `try`, so an uncaught fault in `sell_stock` aborts the loop. -/
def sellGo (env : String → PriceOutcome) :
    List Stock → List Stock → List Stock × Bool
  | [], st => (st, false)
  | s :: rest, st =>
    let r := sellStock (match s.symbol with
                        | none => .nodata
                        | some sym => env sym) s st
    if r.2 then (r.1, true) else sellGo env rest r.1

/-- The records one `execute_sell_next_day` run processes:
`find({"status": "to_sell"}).to_list(100)`. -/
def toSellBatch (store : List Stock) : List Stock :=
  (store.filter (fun s => s.status = "to_sell")).take 100

/-- `execute_sell_next_day` (trading.py:132-136). -/
def executeSellNextDay (env : String → PriceOutcome) (store : List Stock) :
    List Stock × Bool :=
  sellGo env (toSellBatch store) store

/-- One row of the Chartink screener response used by `scrape_chartink`
(scraping.py:62-74); only the fields the lifecycle reads are kept. -/
structure ScrapeRow where
  rid : String
  nsecode : Option String
  deriving DecidableEq, Repr

/-- The candidate document `scrape_chartink` builds from one screener
row (scraping.py:63-73): notably `status` is always `"shortlisted"` and
`shortlisted_date` the current date. -/
def mkCandidate (today : String) (r : ScrapeRow) : Stock :=
  { sid := r.rid, symbol := r.nsecode, status := "shortlisted",
    buyPrice := none, quantity := none, buyDate := false,
    checkedDate := false, firstCandleTime := none, firstCandleHigh := none,
    dayHighField := none, sellPrice := none, sellDate := false,
    profitPct := none, shortlistedDate := some today }

/-- The duplicate check of `update_shortlist` (trades.py:88-93):
`find_one({"symbol": ..., "shortlisted_date": ...})`. -/
def existsDup (store : List Stock) (c : Stock) : Bool :=
  store.any (fun r => r.symbol = c.symbol && r.shortlistedDate = c.shortlistedDate)

/-- The candidate loop of `update_shortlist` (trades.py:86-100).
`insFault k` injects an unexpected store fault at the k-th candidate's
insert; there is no per-candidate `try`, so such a fault aborts the
loop (it is caught only by the endpoint-level handler). -/
def shortlistGo (insFault : ℕ → Bool) :
    List Stock → ℕ → List Stock → List Stock × Bool
  | [], _, st => (st, false)
  | c :: rest, k, st =>
    if existsDup st c then shortlistGo insFault rest (k + 1) st
    else if insFault k then (st, true)
    else shortlistGo insFault rest (k + 1) (st ++ [c])

/-- `update_shortlist` (trades.py:65-108): gated on the index 50-EMA
check, then de-duplicated insertion of the scraped candidates. -/
def updateShortlist (idxCloses : List ℚ) (today : String)
    (rows : List ScrapeRow) (insFault : ℕ → Bool) (store : List Stock) :
    List Stock × Bool :=
  if isNiftyAbove50Ema idxCloses = false then (store, false)
  else shortlistGo insFault (rows.map (mkCandidate today)) 0 store

/-- Insertion of a candle into a list sorted by bar-open time. -/
def insertByTmin (c : Candle) : List Candle → List Candle
  | [] => [c]
  | d :: rest =>
    if c.tmin ≤ d.tmin then c :: d :: rest else d :: insertByTmin c rest

/-- `df.sort_index()` over one trading day's candles. -/
def sortByTmin : List Candle → List Candle
  | [] => []
  | c :: rest => insertByTmin c (sortByTmin rest)

/-- One attempt against the primary (NSE) source: a 200 response with a
parsed candle list, a non-200 status code, or an exception (network
error or malformed payload). -/
inductive NseAttempt where
  | ok (candles : List Candle)
  | httpErr (code : ℕ)
  | exn
  deriving DecidableEq, Repr

/-- Default retry bound of `fetch_from_nse` (helpers.py:32). -/
def nseDefaultRetries : ℕ := 3

/-- Default inter-attempt delay of `fetch_from_nse`, in seconds
(helpers.py:32). -/
def nseDefaultDelay : ℚ := 3/2

/-- `fetch_from_nse` (helpers.py:32-109).  `att i` is the outcome of the
i-th attempt (0-based), `today` the current IST date, `fuel` the
remaining attempts and `used` the attempts consumed so far.  A 200
response whose candle list is empty, or empty after the today filter,
returns `None` at once — only non-200 statuses (including 401) and
exceptions are retried.  Returns the result and the attempts consumed. -/
def fetchFromNse (att : ℕ → NseAttempt) (today : ℕ) :
    ℕ → ℕ → Option (List Candle) × ℕ
  | 0, used => (none, used)
  | fuel + 1, used =>
    match att used with
    | .ok cs =>
      if cs.isEmpty then (none, used + 1)
      else
        let dfToday := sortByTmin (cs.filter (fun c => c.day = today))
        if dfToday.isEmpty then (none, used + 1) else (some dfToday, used + 1)
    | .httpErr _ => fetchFromNse att today fuel (used + 1)
    | .exn => fetchFromNse att today fuel (used + 1)

/-- Outcome of the yfinance 15-minute fallback download: an exception,
or a (possibly empty) frame of candles in index order. -/
inductive YfOutcome where
  | fault
  | data (cs : List Candle)
  deriving DecidableEq, Repr

/-- The yfinance fallback branch of `fetch_intraday_15m_for_today`
(helpers.py:121-156): empty frame or exception gives `None`; otherwise
today's rows, or — when today has no rows — the rows of the last
available day, sorted by time. -/
def yfProcess (today : ℕ) : YfOutcome → Option (List Candle)
  | .fault => none
  | .data cs =>
    if cs.isEmpty then none
    else
      let dt := cs.filter (fun c => c.day = today)
      if dt.isEmpty then
        match cs.getLast? with
        | none => none
        | some lastC => some (sortByTmin (cs.filter (fun c => c.day = lastC.day)))
      else some (sortByTmin dt)

/-- `fetch_intraday_15m_for_today` (helpers.py:112-156): primary source
first, then the yfinance fallback; never raises.  Also returns the
number of primary-source attempts that were issued. -/
def fetchIntraday15mForToday (att : ℕ → NseAttempt) (today : ℕ)
    (yfd : YfOutcome) : Option (List Candle) × ℕ :=
  let r := fetchFromNse att today nseDefaultRetries 0
  match r.1 with
  | some df => if df.isEmpty then (yfProcess today yfd, r.2) else (some df, r.2)
  | none => (yfProcess today yfd, r.2)

/-- Python `str.split()` on a list of characters: split on runs of
spaces, dropping empty fields. -/
def splitWs (cur : List Char) : List Char → List String
  | [] => if cur.isEmpty then [] else [String.mk cur.reverse]
  | ch :: rest =>
    if ch = ' ' then
      if cur.isEmpty then splitWs [] rest
      else String.mk cur.reverse :: splitWs [] rest
    else splitWs (ch :: cur) rest

/-- Python `s.split()` (space-separated fields). -/
def pySplit (s : String) : List String := splitWs [] s.data

/-- The fields handed to `CronTrigger` by `start_scheduler`. -/
structure TriggerSpec where
  hour : String
  minute : String
  dayOfWeek : String
  deriving DecidableEq, Repr

/-- `start_scheduler`'s per-job trigger construction (scheduler.py:64-72):
`hour, minute, day_of_week = job["cron"].split()` followed by
`CronTrigger(hour=hour, minute=minute, day_of_week=day_of_week if
day_of_week != "*" else "mon-fri")`.  The tuple unpacking raises unless
the string has exactly three fields (`none`). -/
def startSchedulerTrigger (cron : String) : Option TriggerSpec :=
  match pySplit cron with
  | [h, m, d] => some ⟨h, m, if d = "*" then "mon-fri" else d⟩
  | _ => none

/-- Modelled from the claim's words for comparison: the first
whitespace-separated field taken as the cron minute and the second as
the cron hour. -/
def claimTrigger (cron : String) : Option TriggerSpec :=
  match pySplit cron with
  | [m, h, d] => some ⟨h, m, if d = "*" then "mon-fri" else d⟩
  | _ => none

/-- Modelled from the claim's words for comparison: the exit-marking
condition with the 50-EMA computed by the standard recursive exponential
weighting (seed = first close, no adjustment normalization). -/
def specSellCond (bp : ℚ) (closes : List ℚ) : Bool :=
  !closes.isEmpty &&
    (decide (closes.getLastD 0 < emaNoAdjustLast 50 closes) ||
      decide ((closes.getLastD 0 - bp) / bp * 100 ≥ 6))

/-- The transition relation the spec's state machine allows for a stored
record under one core operation: unchanged, or one of the four edges. -/
def allowedTrans (s t : String) : Bool :=
  t = s ||
    (s = "shortlisted" && (t = "bought" || t = "not_triggered")) ||
    (s = "bought" && t = "to_sell") ||
    (s = "to_sell" && t = "sold")

/-- The five statuses of the record state machine. -/
def fiveStatuses : List String :=
  ["shortlisted", "not_triggered", "bought", "to_sell", "sold"]

/-- Whether an evaluation result is the buy outcome (the
`res.get("status") == "bought"` test of trades.py:289). -/
def EvalResult.isBought : EvalResult → Bool
  | .bought _ _ _ _ _ => true
  | _ => false

/-- Whether `mark_to_sell_eod`'s per-record check succeeds with `True`. -/
def markTrue (env : String → DailyOutcome) (s : Stock) : Bool :=
  match markCheck env s with
  | .ok true => true
  | _ => false

theorem allowedTrans_refl (s : String) : allowedTrans s s = true := by
  simp [allowedTrans]

/-- A `$set` by `_id` preserves any pointwise store relation, provided
the written fields are acceptable for every original record carrying the
targeted `_id`. -/
theorem forall2_updateFirstById {R : Stock → Stock → Prop}
    (f : Stock → Stock) (tid : String) :
    ∀ {orig cur : List Stock}, List.Forall₂ R orig cur →
      (∀ a b, a ∈ orig → R a b → b.sid = tid → R a (f b)) →
      List.Forall₂ R orig (updateFirstById f cur tid) := by
  intro orig cur h
  induction h with
  | nil => intro _; exact List.Forall₂.nil
  | @cons a b l1 l2 hab htail ih =>
    intro hok
    simp only [updateFirstById]
    by_cases hb : b.sid = tid
    · rw [if_pos hb]
      exact List.Forall₂.cons (hok a b (List.mem_cons_self a l1) hab hb) htail
    · rw [if_neg hb]
      exact List.Forall₂.cons hab
        (ih (fun a' b' ha' => hok a' b' (List.mem_cons_of_mem a ha')))

/-- Over a collection with pairwise distinct `_id`s, a `$set` by `_id`
is the pointwise guarded rewrite. -/
theorem updateFirstById_eq_map (f : Stock → Stock) (tid : String) :
    ∀ l : List Stock, (l.map Stock.sid).Nodup →
      updateFirstById f l tid =
        l.map (fun b => if b.sid = tid then f b else b) := by
  intro l
  induction l with
  | nil => intro _; rfl
  | cons b rest ih =>
    intro hnd
    rw [List.map_cons, List.nodup_cons] at hnd
    simp only [updateFirstById]
    by_cases hb : b.sid = tid
    · rw [if_pos hb, List.map_cons, if_pos hb]
      have hrest : rest.map (fun x => if x.sid = tid then f x else x) = rest := by
        have : ∀ x ∈ rest, (if x.sid = tid then f x else x) = x := by
          intro x hx
          have hne : x.sid ≠ tid := by
            intro hx2
            exact hnd.1 (hb ▸ hx2 ▸ List.mem_map_of_mem Stock.sid hx)
          rw [if_neg hne]
        calc rest.map (fun x => if x.sid = tid then f x else x)
            = rest.map id := List.map_congr_left this
          _ = rest := List.map_id rest
      rw [hrest]
    · rw [if_neg hb, List.map_cons, if_neg hb, ih hnd.2]

/-- Distinct `_id`s make the record with a given `_id` unique. -/
theorem eq_of_nodup_sid {store : List Stock}
    (hnd : (store.map Stock.sid).Nodup) {a b : Stock}
    (ha : a ∈ store) (hb : b ∈ store) (hs : a.sid = b.sid) : a = b :=
  List.inj_on_of_nodup_map hnd ha hb hs

/-- The `bought` summary list of the entry-decision loop depends only on
the processed snapshots, not on the live collection. -/
theorem buyGo_boughtSyms (cap : ℚ) (env : String → IntradayOutcome) :
    ∀ (pl cur : List Stock),
      (buyGo cap env pl cur).boughtSyms =
        (pl.filter
          (fun s => (evaluateAndBuy cap s (outcomeFor env s)).isBought)).map
          Stock.symbol := by
  intro pl
  induction pl with
  | nil => intro cur; simp [buyGo]
  | cons s rest ih =>
    intro cur
    cases hr : evaluateAndBuy cap s (outcomeFor env s) <;>
      simp [buyGo, hr, ih, EvalResult.isBought, List.filter_cons]

/-- The `not_triggered` summary list of the entry-decision loop: every
processed record whose evaluation was not a buy, including the `skip`
(no-write) outcomes. -/
theorem buyGo_ntSyms (cap : ℚ) (env : String → IntradayOutcome) :
    ∀ (pl cur : List Stock),
      (buyGo cap env pl cur).ntSyms =
        (pl.filter
          (fun s => !(evaluateAndBuy cap s (outcomeFor env s)).isBought)).map
          Stock.symbol := by
  intro pl
  induction pl with
  | nil => intro cur; simp [buyGo]
  | cons s rest ih =>
    intro cur
    cases hr : evaluateAndBuy cap s (outcomeFor env s) <;>
      simp [buyGo, hr, ih, EvalResult.isBought, List.filter_cons]

/-- The intraday fetches issued by the entry-decision loop: one per
processed record with a truthy symbol, whatever the outcomes are. -/
theorem buyGo_fetchLog (cap : ℚ) (env : String → IntradayOutcome) :
    ∀ (pl cur : List Stock),
      (buyGo cap env pl cur).fetchLog = pl.flatMap fetchesOf := by
  intro pl
  induction pl with
  | nil => intro cur; simp [buyGo]
  | cons s rest ih =>
    intro cur
    cases hr : evaluateAndBuy cap s (outcomeFor env s) <;>
      simp [buyGo, hr, ih]

/-- Every processed record lands in exactly one of the two summary
lists, for every environment — including environments that fault on some
records (per-record isolation of the entry decision). -/
theorem buyGo_counts (cap : ℚ) (env : String → IntradayOutcome)
    (pl cur : List Stock) :
    (buyGo cap env pl cur).boughtSyms.length
      + (buyGo cap env pl cur).ntSyms.length = pl.length := by
  rw [buyGo_boughtSyms, buyGo_ntSyms, List.length_map, List.length_map]
  exact (List.length_eq_length_filter_add _).symm

/-- When every processed record evaluates to `skip`, the entry-decision
loop writes nothing at all. -/
theorem buyGo_skip_frame (cap : ℚ) (env : String → IntradayOutcome) :
    ∀ (pl cur : List Stock),
      (∀ s ∈ pl, evaluateAndBuy cap s (outcomeFor env s) = .skip) →
      (buyGo cap env pl cur).store = cur := by
  intro pl
  induction pl with
  | nil => intro cur _; rfl
  | cons s rest ih =>
    intro cur hall
    have hs := hall s (List.mem_cons_self s rest)
    simp [buyGo, hs, ih cur (fun x hx => hall x (List.mem_cons_of_mem s hx))]

/-- Pointwise relation between the collection before and after one core
operation: same `_id`, and the status either unchanged or moved along
one edge of the spec's state machine. -/
def transOk (a b : Stock) : Prop :=
  a.sid = b.sid ∧ allowedTrans a.status b.status = true

theorem transOk_refl (store : List Stock) :
    List.Forall₂ transOk store store :=
  List.forall₂_same.mpr (fun a _ => ⟨rfl, allowedTrans_refl a.status⟩)

/-- Fault-free exit marking over a duplicate-free collection is the
pointwise guarded rewrite: exactly the processed records whose check
returned `True` are re-written to `to_sell`, and the batch completes. -/
theorem markGo_spec (env : String → DailyOutcome) :
    ∀ (pl cur : List Stock), (cur.map Stock.sid).Nodup →
      (pl.map Stock.sid).Nodup →
      (∀ s ∈ pl, markCheck env s ≠ .error ()) →
      markGo env pl cur =
        (cur.map (fun b =>
          if pl.any (fun s => s.sid = b.sid && markTrue env s) then setToSell b
          else b), false) := by
  intro pl
  induction pl with
  | nil =>
    intro cur _ _ _
    simp [markGo]
  | cons s rest ih =>
    intro cur hndc hndp hnf
    rw [List.map_cons, List.nodup_cons] at hndp
    cases hc : markCheck env s with
    | error e =>
      cases e
      exact absurd hc (hnf s (List.mem_cons_self s rest))
    | ok bv =>
      cases bv with
      | false =>
        simp only [markGo, hc]
        rw [ih cur hndc hndp.2 (fun x hx => hnf x (List.mem_cons_of_mem s hx))]
        refine congrArg (fun l => (l, false)) (List.map_congr_left ?_)
        intro b _
        simp [List.any_cons, markTrue, hc]
      | true =>
        simp only [markGo, hc]
        rw [updateFirstById_eq_map setToSell s.sid cur hndc]
        have hsid : (cur.map fun b => if b.sid = s.sid then setToSell b else b).map
            Stock.sid = cur.map Stock.sid := by
          rw [List.map_map]
          refine List.map_congr_left ?_
          intro b _
          by_cases hb : b.sid = s.sid <;> simp [hb, setToSell]
        rw [ih _ (hsid ▸ hndc) hndp.2
          (fun x hx => hnf x (List.mem_cons_of_mem s hx))]
        refine congrArg (fun l => (l, false)) ?_
        rw [List.map_map]
        refine List.map_congr_left ?_
        intro b _
        by_cases hb : b.sid = s.sid
        · have hnone : ∀ s' ∈ rest, (s'.sid = b.sid && markTrue env s') = false := by
            intro s' hs'
            have : s'.sid ≠ b.sid := by
              intro he
              exact hndp.1 (hb ▸ he ▸ List.mem_map_of_mem Stock.sid hs')
            simp [this]
          simp only [Function.comp, hb, if_pos rfl]
          rw [List.any_cons]
          simp only [setToSell]
          have hany : rest.any (fun s' => s'.sid = b.sid && markTrue env s') = false :=
            List.any_eq_false.mpr (fun x hx => by simp [hnone x hx])
          simp [hany, hb, markTrue, hc]
        · simp only [Function.comp, if_neg hb]
          rw [List.any_cons]
          have : (s.sid = b.sid && markTrue env s) = false := by
            have : s.sid ≠ b.sid := fun he => hb (he.symm)
            simp [this]
          simp [this]

/-- Exit marking only moves records along the `bought → to_sell` edge,
whatever the environment does (faults included). -/
theorem markGo_allowed (env : String → DailyOutcome) (orig : List Stock)
    (hnd : (orig.map Stock.sid).Nodup) :
    ∀ (pl cur : List Stock),
      (∀ s ∈ pl, s ∈ orig ∧ s.status = "bought") →
      List.Forall₂ transOk orig cur →
      List.Forall₂ transOk orig (markGo env pl cur).1 := by
  intro pl
  induction pl with
  | nil => intro cur _ h; simpa [markGo] using h
  | cons s rest ih =>
    intro cur hpl h
    have hsm := hpl s (List.mem_cons_self s rest)
    cases hc : markCheck env s with
    | error e => simpa [markGo, hc] using h
    | ok bv =>
      cases bv with
      | false =>
        simp only [markGo, hc]
        exact ih cur (fun x hx => hpl x (List.mem_cons_of_mem s hx)) h
      | true =>
        simp only [markGo, hc]
        refine ih _ (fun x hx => hpl x (List.mem_cons_of_mem s hx)) ?_
        refine forall2_updateFirstById setToSell s.sid h ?_
        intro a b ha hR hbs
        refine ⟨hR.1, ?_⟩
        have has : a.sid = s.sid := hR.1.trans hbs
        have haeq : a = s := eq_of_nodup_sid hnd ha hsm.1 has
        rw [haeq, hsm.2]
        rfl

/-- The entry decision only moves records along the
`shortlisted → bought` and `shortlisted → not_triggered` edges. -/
theorem buyGo_allowed (cap : ℚ) (env : String → IntradayOutcome)
    (orig : List Stock) (hnd : (orig.map Stock.sid).Nodup) :
    ∀ (pl cur : List Stock),
      (∀ s ∈ pl, s ∈ orig ∧ s.status = "shortlisted") →
      List.Forall₂ transOk orig cur →
      List.Forall₂ transOk orig (buyGo cap env pl cur).store := by
  intro pl
  induction pl with
  | nil => intro cur _ h; simpa [buyGo] using h
  | cons s rest ih =>
    intro cur hpl h
    have hsm := hpl s (List.mem_cons_self s rest)
    have hrest := fun x hx => hpl x (List.mem_cons_of_mem s hx)
    cases hr : evaluateAndBuy cap s (outcomeFor env s) with
    | skip =>
      simp only [buyGo, hr]
      exact ih cur hrest h
    | bought p q t fh dh =>
      simp only [buyGo, hr]
      refine ih _ hrest ?_
      refine forall2_updateFirstById _ s.sid h ?_
      intro a b ha hR hbs
      refine ⟨hR.1, ?_⟩
      have haeq : a = s := eq_of_nodup_sid hnd ha hsm.1 (hR.1.trans hbs)
      rw [haeq, hsm.2]
      rfl
    | notTriggered t fh dh =>
      simp only [buyGo, hr]
      refine ih _ hrest ?_
      refine forall2_updateFirstById _ s.sid h ?_
      intro a b ha hR hbs
      refine ⟨hR.1, ?_⟩
      have haeq : a = s := eq_of_nodup_sid hnd ha hsm.1 (hR.1.trans hbs)
      rw [haeq, hsm.2]
      rfl

/-- Exit execution only moves records along the `to_sell → sold` edge,
also when a record's processing faults after its own update. -/
theorem sellGo_allowed (env : String → PriceOutcome) (orig : List Stock)
    (hnd : (orig.map Stock.sid).Nodup) :
    ∀ (pl cur : List Stock),
      (∀ s ∈ pl, s ∈ orig ∧ s.status = "to_sell") →
      List.Forall₂ transOk orig cur →
      List.Forall₂ transOk orig (sellGo env pl cur).1 := by
  intro pl
  induction pl with
  | nil => intro cur _ h; simpa [sellGo] using h
  | cons s rest ih =>
    intro cur hpl h
    have hsm := hpl s (List.mem_cons_self s rest)
    have hrest := fun x hx => hpl x (List.mem_cons_of_mem s hx)
    have hupd : ∀ (p : ℚ) (profit : Option ℚ),
        List.Forall₂ transOk orig
          (updateFirstById (setSold p profit) cur s.sid) := by
      intro p profit
      refine forall2_updateFirstById _ s.sid h ?_
      intro a b ha hR hbs
      refine ⟨hR.1, ?_⟩
      have haeq : a = s := eq_of_nodup_sid hnd ha hsm.1 (hR.1.trans hbs)
      rw [haeq, hsm.2]
      rfl
    cases hsym : s.symbol with
    | none => simpa [sellGo, sellStock, hsym] using h
    | some sym =>
      cases hout : env sym with
      | fault => simpa [sellGo, sellStock, hsym, hout] using h
      | nodata =>
        simp only [sellGo, sellStock, hsym, hout]
        exact ih cur hrest h
      | price p =>
        simp only [sellGo, sellStock, hsym, hout]
        by_cases hbp : s.buyPrice.getD 0 = 0
        · simpa [hbp] using hupd p none
        · simpa [hbp] using ih _ hrest (hupd p _)

/-- The shortlist loop only appends; whatever it appends comes from the
candidate list. -/
theorem shortlistGo_append (insF : ℕ → Bool) :
    ∀ (cands : List Stock) (k : ℕ) (st : List Stock),
      ∃ tail, (shortlistGo insF cands k st).1 = st ++ tail ∧
        ∀ r ∈ tail, r ∈ cands := by
  intro cands
  induction cands with
  | nil =>
    intro k st
    exact ⟨[], by simp [shortlistGo], by simp⟩
  | cons c rest ih =>
    intro k st
    by_cases h1 : existsDup st c
    · obtain ⟨tail, ht, hm⟩ := ih (k + 1) st
      exact ⟨tail, by simpa [shortlistGo, h1] using ht,
        fun r hr => List.mem_cons_of_mem c (hm r hr)⟩
    · by_cases h2 : insF k
      · exact ⟨[], by simp [shortlistGo, h1, h2], by simp⟩
      · obtain ⟨tail, ht, hm⟩ := ih (k + 1) (st ++ [c])
        refine ⟨c :: tail, ?_, ?_⟩
        · rw [show st ++ c :: tail = (st ++ [c]) ++ tail by simp]
          simpa [shortlistGo, h1, h2] using ht
        · intro r hr
          rcases List.mem_cons.mp hr with hr | hr
          · exact hr ▸ List.mem_cons_self c rest
          · exact List.mem_cons_of_mem c (hm r hr)

theorem applyEval_sid (b : Stock) (r : EvalResult) :
    (applyEval b r).sid = b.sid := by
  cases r <;> rfl

/-- A `find(filter).to_list(100)` batch is made of store records
satisfying the filter. -/
theorem batch_mem {p : Stock → Bool} {store : List Stock} {s : Stock}
    (hs : s ∈ (store.filter p).take 100) : s ∈ store ∧ p s = true :=
  List.mem_filter.mp (List.mem_of_mem_take hs)

/-- A batch drawn from a duplicate-free store has duplicate-free ids. -/
theorem batch_nodup (p : Stock → Bool) (store : List Stock)
    (hnd : (store.map Stock.sid).Nodup) :
    (((store.filter p).take 100).map Stock.sid).Nodup :=
  hnd.sublist
    (List.Sublist.map Stock.sid
      ((List.take_sublist 100 _).trans (List.filter_sublist store)))

/-- Over a duplicate-free collection, the entry-decision loop is the
pointwise rewrite: each record hit by a processed snapshot receives that
snapshot's evaluation result (`skip` writing nothing), everything else
is untouched. -/
theorem buyGo_store_spec (cap : ℚ) (env : String → IntradayOutcome) :
    ∀ (pl cur : List Stock), (cur.map Stock.sid).Nodup →
      (pl.map Stock.sid).Nodup →
      (buyGo cap env pl cur).store =
        cur.map (fun b =>
          match pl.find? (fun s => s.sid = b.sid) with
          | some s => applyEval b (evaluateAndBuy cap s (outcomeFor env s))
          | none => b) := by
  intro pl
  induction pl with
  | nil =>
    intro cur _ _
    simp [buyGo]
  | cons s rest ih =>
    intro cur hndc hndp
    rw [List.map_cons, List.nodup_cons] at hndp
    have hnone : ∀ b : Stock, s.sid = b.sid →
        rest.find? (fun s' => decide (s'.sid = b.sid)) = none := by
      intro b hbs
      refine List.find?_eq_none.mpr ?_
      intro x hx
      simp only [decide_eq_true_eq]
      intro he
      exact hndp.1 (hbs ▸ he ▸ List.mem_map_of_mem Stock.sid hx)
    cases hr : evaluateAndBuy cap s (outcomeFor env s) with
    | skip =>
      simp only [buyGo, hr]
      rw [ih cur hndc hndp.2]
      refine List.map_congr_left ?_
      intro b _
      by_cases hbs : s.sid = b.sid
      · rw [List.find?_cons_of_pos _ (by simpa using hbs), hnone b hbs]
        simp [hr, applyEval]
      · rw [List.find?_cons_of_neg _ (by simpa using hbs)]
    | bought p q t fh dh =>
      simp only [buyGo, hr]
      rw [updateFirstById_eq_map _ s.sid cur hndc]
      have hsid : ((cur.map fun b =>
          if b.sid = s.sid then applyEval b (EvalResult.bought p q t fh dh)
          else b).map Stock.sid) = cur.map Stock.sid := by
        rw [List.map_map]
        refine List.map_congr_left ?_
        intro b _
        by_cases hb : b.sid = s.sid <;> simp [hb, applyEval_sid]
      rw [ih _ (by rw [hsid]; exact hndc) hndp.2, List.map_map]
      refine List.map_congr_left ?_
      intro b _
      by_cases hbs : b.sid = s.sid
      · simp only [Function.comp, if_pos hbs]
        rw [List.find?_cons_of_pos _ (by simpa using hbs.symm)]
        simp [applyEval_sid, hnone b hbs.symm, hr]
      · simp only [Function.comp, if_neg hbs]
        rw [List.find?_cons_of_neg _ (by simpa using fun h => hbs h.symm)]
    | notTriggered t fh dh =>
      simp only [buyGo, hr]
      rw [updateFirstById_eq_map _ s.sid cur hndc]
      have hsid : ((cur.map fun b =>
          if b.sid = s.sid then applyEval b (EvalResult.notTriggered t fh dh)
          else b).map Stock.sid) = cur.map Stock.sid := by
        rw [List.map_map]
        refine List.map_congr_left ?_
        intro b _
        by_cases hb : b.sid = s.sid <;> simp [hb, applyEval_sid]
      rw [ih _ (by rw [hsid]; exact hndc) hndp.2, List.map_map]
      refine List.map_congr_left ?_
      intro b _
      by_cases hbs : b.sid = s.sid
      · simp only [Function.comp, if_pos hbs]
        rw [List.find?_cons_of_pos _ (by simpa using hbs.symm)]
        simp [applyEval_sid, hnone b hbs.symm, hr]
      · simp only [Function.comp, if_neg hbs]
        rw [List.find?_cons_of_neg _ (by simpa using fun h => hbs h.symm)]

/-- C5 counterexample: the index check `is_nifty_above_50ema` has no
minimum-length guard — on the two-point rising series `[100, 200]` it
returns `true` although fewer than 50 observations were supplied, so not
every above-50-EMA check treats a short series as "not above". -/
theorem isNifty_short_series_cx :
    ([100, 200] : List ℚ).length < 50 ∧ isNiftyAbove50Ema [100, 200] = true := by
  refine ⟨by norm_num, ?_⟩
  simp [isNiftyAbove50Ema, emaNoAdjustLast]
  norm_num

/-- C5 (amended): the per-stock check `check_stock_above_50ema` returns
`false` whenever fewer than 50 observations are supplied; the index
check `is_nifty_above_50ema` returns `false` only for an empty series and
can return `true` on fewer than 50 observations. -/
theorem above50Ema_length_guard :
    (∀ closes : List ℚ, closes.length < 50 → checkStockAbove50Ema closes = false)
    ∧ isNiftyAbove50Ema [] = false
    ∧ (∃ closes : List ℚ, closes.length < 50 ∧ isNiftyAbove50Ema closes = true) := by
  refine ⟨?_, by simp [isNiftyAbove50Ema], ⟨[100, 200], by norm_num, ?_⟩⟩
  · intro closes h
    simp [checkStockAbove50Ema, h]
  · simp [isNiftyAbove50Ema, emaNoAdjustLast]
    norm_num

theorem above50Ema_length_guard_witness :
    checkStockAbove50Ema [100] = false :=
  above50Ema_length_guard.1 [100] (by norm_num)

/-- C7 counterexample: on the schedule string `"30 9 *"` the scheduler
builds a trigger with cron hour `"30"` and cron minute `"9"` — the first
field is the hour, not the minute as the claim states. -/
theorem cron_fields_cx :
    startSchedulerTrigger "30 9 *" =
        some { hour := "30", minute := "9", dayOfWeek := "mon-fri" } ∧
      claimTrigger "30 9 *" =
        some { hour := "9", minute := "30", dayOfWeek := "mon-fri" } ∧
      startSchedulerTrigger "30 9 *" ≠ claimTrigger "30 9 *" := by
  refine ⟨by decide, by decide, by decide⟩

/-- C7 (amended): each job's schedule string is interpreted as
`"<hour> <minute> <day-of-week>"` — the first whitespace-separated field
is the cron hour and the second the cron minute — and a day-of-week
field of `"*"` is replaced by `"mon-fri"` (the five weekdays). -/
theorem cron_fields_hour_minute (cron h m d : String)
    (hsplit : pySplit cron = [h, m, d]) :
    startSchedulerTrigger cron =
      some { hour := h, minute := m,
             dayOfWeek := if d = "*" then "mon-fri" else d } := by
  simp [startSchedulerTrigger, hsplit]

theorem cron_fields_hour_minute_witness :
    startSchedulerTrigger "30 9 *" =
      some { hour := "30", minute := "9", dayOfWeek := "mon-fri" } := by
  have h := cron_fields_hour_minute "30 9 *" "30" "9" "*" (by decide)
  simpa using h

/-- Transient primary-source outcomes: a non-200 status (including the
401 authorization rejection) or an exception — exactly the cases
`fetch_from_nse` retries. -/
def NseAttempt.isTransient : NseAttempt → Bool
  | .ok _ => false
  | .httpErr _ => true
  | .exn => true

theorem fetchFromNse_transient_step (att : ℕ → NseAttempt) (today fuel used : ℕ)
    (h : (att used).isTransient = true) :
    fetchFromNse att today (fuel + 1) used = fetchFromNse att today fuel (used + 1) := by
  cases ha : att used with
  | ok cs => rw [ha] at h; simp [NseAttempt.isTransient] at h
  | httpErr c => simp [fetchFromNse, ha]
  | exn => simp [fetchFromNse, ha]

/-- C6 counterexample: a well-formed 200 response with an empty candle
list is *not* retried — the primary fetch gives up after a single
attempt (attempts consumed = 1, not 3) and the engine falls straight
back to the secondary source. -/
theorem fetchFromNse_empty_no_retry_cx :
    fetchFromNse (fun _ => NseAttempt.ok []) 5 3 0 = (none, 1) ∧
      fetchIntraday15mForToday (fun _ => NseAttempt.ok []) 5
          (YfOutcome.data [⟨5, 570, 10, 10⟩]) =
        (some [⟨5, 570, 10, 10⟩], 1) := by
  constructor
  · simp [fetchFromNse]
  · simp [fetchIntraday15mForToday, fetchFromNse, nseDefaultRetries, yfProcess,
      sortByTmin, insertByTmin]

/-- C6 (amended): the primary intraday source is retried (3 attempts,
≈1.5s apart) only on transient failures — non-2xx status, authorization
rejection, or an exception such as a malformed payload; a well-formed
but empty result returns not-available after a single attempt; in either
case the engine then falls back to the secondary source and returns its
result (or a not-available value) without raising. -/
theorem fetchIntraday_retry_fallback :
    (∀ (att : ℕ → NseAttempt) (today : ℕ) (yfd : YfOutcome),
      (∀ i, i < 3 → (att i).isTransient = true) →
      fetchFromNse att today 3 0 = (none, 3) ∧
        fetchIntraday15mForToday att today yfd = (yfProcess today yfd, 3))
    ∧ (∀ (att : ℕ → NseAttempt) (today : ℕ) (yfd : YfOutcome),
        att 0 = NseAttempt.ok [] →
        fetchIntraday15mForToday att today yfd = (yfProcess today yfd, 1))
    ∧ nseDefaultRetries = 3 ∧ nseDefaultDelay = 3/2 := by
  refine ⟨?_, ?_, rfl, rfl⟩
  · intro att today yfd hfail
    have hmain : fetchFromNse att today 3 0 = (none, 3) := by
      rw [fetchFromNse_transient_step att today 2 0 (hfail 0 (by norm_num)),
        fetchFromNse_transient_step att today 1 1 (hfail 1 (by norm_num)),
        fetchFromNse_transient_step att today 0 2 (hfail 2 (by norm_num))]
      rfl
    refine ⟨hmain, ?_⟩
    simp [fetchIntraday15mForToday, nseDefaultRetries, hmain]
  · intro att today yfd h0
    have hmain : fetchFromNse att today 3 0 = (none, 1) := by
      simp [fetchFromNse, h0]
    simp [fetchIntraday15mForToday, nseDefaultRetries, hmain]

theorem fetchIntraday_retry_fallback_witness :
    fetchIntraday15mForToday (fun _ => NseAttempt.httpErr 401) 5
        (YfOutcome.data [⟨5, 570, 10, 10⟩]) =
      (some [⟨5, 570, 10, 10⟩], 3) := by
  have h := (fetchIntraday_retry_fallback.1 (fun _ => NseAttempt.httpErr 401) 5
    (YfOutcome.data [⟨5, 570, 10, 10⟩])
    (fun i _ => by simp [NseAttempt.isTransient])).2
  rw [h]
  simp [yfProcess, sortByTmin, insertByTmin]

theorem selectRef_ne_nil {cs : List Candle} {c : Candle}
    (h : selectRef cs = some c) : cs.isEmpty = false := by
  cases cs with
  | nil => simp [selectRef, pick915, pickMarket] at h
  | cons a l => rfl

/-- The breakout branch of `evaluate_and_buy`, in terms of the selected
reference candle. -/
theorem evalBuy_bought (cap : ℚ) (s : Stock) (sym : String)
    (cs : List Candle) (c : Candle) (hsym : s.symbol = some sym)
    (hne : sym ≠ "") (hsel : selectRef cs = some c)
    (hgt : dayHigh cs > c.high)
    (hp : pyRound2 (c.high * (1002/1000)) ≠ 0)
    (hq : ⌊cap / pyRound2 (c.high * (1002/1000))⌋ ≠ 0) :
    evaluateAndBuy cap s (.data cs) =
      .bought (pyRound2 (c.high * (1002/1000)))
        ⌊cap / pyRound2 (c.high * (1002/1000))⌋ c.tmin c.high (dayHigh cs) := by
  have hcs := selectRef_ne_nil hsel
  simp only [evaluateAndBuy, hsym, if_neg hne, hcs, Bool.false_eq_true,
    if_false, hsel, if_pos hgt, if_neg hp, if_neg hq]

/-- The no-breakout branch of `evaluate_and_buy`. -/
theorem evalBuy_notTriggered (cap : ℚ) (s : Stock) (sym : String)
    (cs : List Candle) (c : Candle) (hsym : s.symbol = some sym)
    (hne : sym ≠ "") (hsel : selectRef cs = some c)
    (hle : dayHigh cs ≤ c.high) :
    evaluateAndBuy cap s (.data cs) =
      .notTriggered c.tmin c.high (dayHigh cs) := by
  have hcs := selectRef_ne_nil hsel
  have hngt : ¬dayHigh cs > c.high := not_lt.mpr hle
  simp only [evaluateAndBuy, hsym, if_neg hne, hcs, Bool.false_eq_true,
    if_false, hsel, if_neg hngt]

/-- C2: with a selected reference candle of high `first_high` and a day
high `day_high`, a breakout (`day_high > first_high`) with a positive
computed quantity transitions the record to `bought` with
`buy_price = round(first_high * 1.002, 2)` and
`quantity = floor(TRADE_CAP / buy_price)`; in particular
`round(100 * 1.002, 2) = 100.20` and `floor(1000 / 100.20) = 9`; and
`day_high ≤ first_high` yields `not_triggered` with the candle time,
candle high, day high and checked date recorded. -/
theorem evaluateAndBuy_breakout_entry :
    (∀ (cap : ℚ) (s : Stock) (sym : String) (cs : List Candle) (c : Candle),
      s.symbol = some sym → sym ≠ "" → selectRef cs = some c →
      dayHigh cs > c.high → pyRound2 (c.high * (1002/1000)) ≠ 0 →
      ⌊cap / pyRound2 (c.high * (1002/1000))⌋ ≠ 0 →
      evaluateAndBuy cap s (.data cs) =
        .bought (pyRound2 (c.high * (1002/1000)))
          ⌊cap / pyRound2 (c.high * (1002/1000))⌋ c.tmin c.high (dayHigh cs))
    ∧ (∀ (cap : ℚ) (s : Stock) (sym : String) (cs : List Candle) (c : Candle),
        s.symbol = some sym → sym ≠ "" → selectRef cs = some c →
        dayHigh cs ≤ c.high →
        evaluateAndBuy cap s (.data cs) =
          .notTriggered c.tmin c.high (dayHigh cs))
    ∧ pyRound2 (100 * (1002/1000)) = 501/5
    ∧ ⌊(1000 : ℚ) / (501/5)⌋ = 9
    ∧ (∀ (b : Stock) (p : ℚ) (q : ℤ) (t : ℕ) (fh dh : ℚ),
        (applyEval b (.bought p q t fh dh)).status = "bought"
        ∧ (applyEval b (.bought p q t fh dh)).buyPrice = some p
        ∧ (applyEval b (.bought p q t fh dh)).quantity = some q
        ∧ (applyEval b (.bought p q t fh dh)).checkedDate = true)
    ∧ (∀ (b : Stock) (t : ℕ) (fh dh : ℚ),
        (applyEval b (.notTriggered t fh dh)).status = "not_triggered"
        ∧ (applyEval b (.notTriggered t fh dh)).checkedDate = true
        ∧ (applyEval b (.notTriggered t fh dh)).firstCandleTime = some t
        ∧ (applyEval b (.notTriggered t fh dh)).firstCandleHigh = some fh
        ∧ (applyEval b (.notTriggered t fh dh)).dayHighField = some dh) := by
  refine ⟨evalBuy_bought, evalBuy_notTriggered, ?_, ?_, ?_, ?_⟩
  · simp [pyRound2, roundHalfEven]
    norm_num
  · norm_num [Int.floor_eq_iff]
  · intro b p q t fh dh
    simp [applyEval]
  · intro b t fh dh
    simp [applyEval]

theorem evaluateAndBuy_breakout_entry_witness :
    evaluateAndBuy 1000
        ⟨"w2", some "ABC", "shortlisted", none, none, false, false, none,
          none, none, none, false, none, none⟩
        (.data [⟨0, 555, 100, 100⟩, ⟨0, 585, 203/2, 101⟩]) =
      .bought (501/5) 9 555 100 (203/2) := by
  have h := evaluateAndBuy_breakout_entry.1 1000
    ⟨"w2", some "ABC", "shortlisted", none, none, false, false, none,
      none, none, none, false, none, none⟩
    "ABC" [⟨0, 555, 100, 100⟩, ⟨0, 585, 203/2, 101⟩] ⟨0, 555, 100, 100⟩
    rfl (by decide) (by decide)
    (by simp [dayHigh]; norm_num)
    (by simp [pyRound2, roundHalfEven]; norm_num)
    (by simp [pyRound2, roundHalfEven]; norm_num [Int.floor_eq_iff])
  rw [h]
  have h1 : pyRound2 ((100 : ℚ) * (1002/1000)) = 501/5 :=
    evaluateAndBuy_breakout_entry.2.2.1
  have h2 : dayHigh [⟨0, 555, 100, 100⟩, ⟨0, 585, 203/2, 101⟩] = 203/2 := by
    simp [dayHigh]
    norm_num
  simp only [h1, h2]
  norm_num [Int.floor_eq_iff]

/-- C8: during an entry-decision run, a record with no candle in the
09:15–09:30 window and none in the 09:00–10:00 fallback window, or with
a breakout whose computed quantity is 0, is left completely untouched:
the evaluation is `skip`, `skip` writes nothing, and a batch whose
records all evaluate to `skip` leaves the stored collection unchanged. -/
theorem evaluateAndBuy_indeterminate_frame :
    (∀ (cap : ℚ) (s : Stock) (cs : List Candle),
      (∀ c ∈ cs, ¬(555 ≤ c.tmin ∧ c.tmin < 570)) →
      (∀ c ∈ cs, ¬(540 ≤ c.tmin ∧ c.tmin ≤ 600)) →
      evaluateAndBuy cap s (.data cs) = .skip)
    ∧ (∀ (cap : ℚ) (s : Stock) (cs : List Candle) (c : Candle),
        selectRef cs = some c → dayHigh cs > c.high →
        ⌊cap / pyRound2 (c.high * (1002/1000))⌋ = 0 →
        evaluateAndBuy cap s (.data cs) = .skip)
    ∧ (∀ b : Stock, applyEval b .skip = b)
    ∧ (∀ (cap : ℚ) (env : String → IntradayOutcome) (store : List Stock),
        (∀ s ∈ shortlistBatch store,
          evaluateAndBuy cap s (outcomeFor env s) = .skip) →
        (buyShortlisted cap env store).store = store) := by
  refine ⟨?_, ?_, fun b => rfl, ?_⟩
  · intro cap s cs h1 h2
    have hp1 : pick915 cs = [] := by
      refine List.filter_eq_nil_iff.mpr ?_
      intro c hc
      simpa using h1 c hc
    have hp2 : pickMarket cs = [] := by
      refine List.filter_eq_nil_iff.mpr ?_
      intro c hc
      simpa using h2 c hc
    have hsel : selectRef cs = none := by simp [selectRef, hp1, hp2]
    cases hs : s.symbol with
    | none => simp [evaluateAndBuy, hs]
    | some sym =>
      by_cases he : sym = ""
      · simp [evaluateAndBuy, hs, he]
      · by_cases hemp : cs.isEmpty
        · simp [evaluateAndBuy, hs, he, hemp]
        · simp [evaluateAndBuy, hs, he, hemp, hsel]
  · intro cap s cs c hsel hgt hq0
    have hcs := selectRef_ne_nil hsel
    cases hs : s.symbol with
    | none => simp [evaluateAndBuy, hs]
    | some sym =>
      by_cases he : sym = ""
      · simp [evaluateAndBuy, hs, he]
      · by_cases hbp : pyRound2 (c.high * (1002/1000)) = 0
        · simp only [evaluateAndBuy, hs, if_neg he, hcs, Bool.false_eq_true,
            if_false, hsel, if_pos hgt, if_pos hbp]
        · simp only [evaluateAndBuy, hs, if_neg he, hcs, Bool.false_eq_true,
            if_false, hsel, if_pos hgt, if_neg hbp, if_pos hq0]
  · intro cap env store hall
    exact buyGo_skip_frame cap env _ store hall

theorem evaluateAndBuy_indeterminate_frame_witness :
    evaluateAndBuy 1000
        ⟨"w8", some "XYZ", "shortlisted", none, none, false, false, none,
          none, none, none, false, none, none⟩
        (.data [⟨0, 700, 100, 100⟩]) = .skip :=
  evaluateAndBuy_indeterminate_frame.1 1000
    ⟨"w8", some "XYZ", "shortlisted", none, none, false, false, none,
      none, none, none, false, none, none⟩
    [⟨0, 700, 100, 100⟩] (by decide) (by decide)

/-- Concrete shortlisted record for the entry-decision counterexamples. -/
def c1S : Stock :=
  ⟨"c1", some "AAA", "shortlisted", none, none, false, false, none, none,
    none, none, false, none, none⟩

/-- Concrete intraday frame: reference candle (09:15) high 100, a later
candle making the day high 101.5 — a breakout day. -/
def c1Candles : List Candle := [⟨0, 555, 100, 100⟩, ⟨0, 585, 203/2, 101⟩]

theorem c1_eval :
    evaluateAndBuy 1000 c1S (.data c1Candles) =
      .bought (501/5) 9 555 100 (203/2) := by
  have hdh : dayHigh c1Candles = 203/2 := by
    simp [dayHigh, c1Candles]
    norm_num
  have hp : pyRound2 ((100 : ℚ) * (1002/1000)) = 501/5 := by
    simp [pyRound2, roundHalfEven]
    norm_num
  have hq : ⌊(1000 : ℚ) / (501/5)⌋ = 9 := by norm_num [Int.floor_eq_iff]
  have h := evalBuy_bought 1000 c1S "AAA" c1Candles ⟨0, 555, 100, 100⟩
    rfl (by decide) rfl
    (by rw [show (⟨0, 555, 100, 100⟩ : Candle).high = 100 by rfl, hdh]; norm_num)
    (by rw [show (⟨0, 555, 100, 100⟩ : Candle).high = 100 by rfl, hp]; norm_num)
    (by rw [show (⟨0, 555, 100, 100⟩ : Candle).high = 100 by rfl, hp, hq]; norm_num)
  rw [h, show (⟨0, 555, 100, 100⟩ : Candle).high = 100 by rfl, hp, hq, hdh]

/-- C1 counterexample: the batch entry decision issues a per-stock
intraday fetch and transitions a record to `bought` even while the index
is *below* its 50-EMA — `buy_shortlisted` never re-checks the index, so
the record is not moved to `not_triggered` and the fetch is not
suppressed. -/
theorem buyShortlisted_index_recheck_cx :
    isNiftyAbove50Ema [100, 80] = false ∧
      (buyShortlisted 1000 (fun _ => .data c1Candles) [c1S]).fetchLog = ["AAA"] ∧
      (buyShortlisted 1000 (fun _ => .data c1Candles) [c1S]).store.map
          Stock.status = ["bought"] := by
  have hidx : isNiftyAbove50Ema [100, 80] = false := by
    simp [isNiftyAbove50Ema, emaNoAdjustLast]
    norm_num
  have hout : outcomeFor (fun _ => .data c1Candles) c1S = .data c1Candles := rfl
  have heval : evaluateAndBuy 1000 c1S (outcomeFor (fun _ => .data c1Candles) c1S)
      = .bought (501/5) 9 555 100 (203/2) := by rw [hout, c1_eval]
  have hstat : c1S.status = "shortlisted" := rfl
  have hsym : c1S.symbol = some "AAA" := rfl
  refine ⟨hidx, ?_, ?_⟩
  · simp [buyShortlisted, shortlistBatch, buyGo, hstat, heval, fetchesOf, hsym]
  · simp [buyShortlisted, shortlistBatch, buyGo, hstat, heval, updateFirstById,
      applyEval]

/-- C1 (amended): `buy_shortlisted` performs no index 50-EMA re-check:
even when the index is below its 50-EMA, a per-stock intraday fetch is
issued for every shortlisted record of the batch (records with a falsy
symbol excepted), and the per-record outcomes are decided solely by the
breakout rule. -/
theorem buyShortlisted_no_index_recheck (idxCloses : List ℚ) (cap : ℚ)
    (env : String → IntradayOutcome) (store : List Stock)
    (hidx : isNiftyAbove50Ema idxCloses = false) :
    (buyShortlisted cap env store).fetchLog =
      (shortlistBatch store).flatMap fetchesOf :=
  buyGo_fetchLog cap env (shortlistBatch store) store

theorem buyShortlisted_no_index_recheck_witness :
    (buyShortlisted 1000 (fun _ => IntradayOutcome.nodata) [c1S]).fetchLog
      = ["AAA"] := by
  have h := buyShortlisted_no_index_recheck [100, 80] 1000
    (fun _ => IntradayOutcome.nodata) [c1S]
    (by simp [isNiftyAbove50Ema, emaNoAdjustLast]; norm_num)
  rw [h]
  have hstat : c1S.status = "shortlisted" := rfl
  simp [shortlistBatch, hstat, fetchesOf, show c1S.symbol = some "AAA" from rfl]

/-- C10: the summary of `buy_shortlisted` lists every processed record
whose evaluation was not a buy under the `not_triggered` outcome —
including `skip` outcomes, which write nothing to the store — while the
stored collection is rewritten only at records hit by a non-`skip`
evaluation; so the returned outcome lists can disagree with the stored
statuses. -/
theorem buyShortlisted_summary_not_triggered (cap : ℚ)
    (env : String → IntradayOutcome) (store : List Stock)
    (hnd : (store.map Stock.sid).Nodup) :
    (buyShortlisted cap env store).ntSyms =
      ((shortlistBatch store).filter
        (fun s => !(evaluateAndBuy cap s (outcomeFor env s)).isBought)).map
        Stock.symbol
    ∧ (buyShortlisted cap env store).boughtSyms =
      ((shortlistBatch store).filter
        (fun s => (evaluateAndBuy cap s (outcomeFor env s)).isBought)).map
        Stock.symbol
    ∧ (buyShortlisted cap env store).store =
      store.map (fun b =>
        match (shortlistBatch store).find? (fun s => s.sid = b.sid) with
        | some s => applyEval b (evaluateAndBuy cap s (outcomeFor env s))
        | none => b)
    ∧ (∀ b : Stock, applyEval b .skip = b) :=
  ⟨buyGo_ntSyms cap env (shortlistBatch store) store,
    buyGo_boughtSyms cap env (shortlistBatch store) store,
    buyGo_store_spec cap env (shortlistBatch store) store hnd
      (batch_nodup _ store hnd),
    fun _ => rfl⟩

theorem buyShortlisted_summary_not_triggered_witness :
    (buyShortlisted 1000 (fun _ => IntradayOutcome.nodata) [c1S]).ntSyms
        = [some "AAA"]
    ∧ (buyShortlisted 1000 (fun _ => IntradayOutcome.nodata) [c1S]).store
        = [c1S] := by
  have h := buyShortlisted_summary_not_triggered 1000
    (fun _ => IntradayOutcome.nodata) [c1S] (by simp)
  have heval : evaluateAndBuy 1000 c1S
      (outcomeFor (fun _ => IntradayOutcome.nodata) c1S) = .skip := rfl
  have hstat : c1S.status = "shortlisted" := rfl
  constructor
  · rw [h.1]
    simp [shortlistBatch, hstat, heval, EvalResult.isBought,
      show c1S.symbol = some "AAA" from rfl]
  · rw [h.2.2.1]
    simp [shortlistBatch, hstat, heval, applyEval]

/-- A `bought` record whose daily fetch faults. -/
def c3S1 : Stock :=
  ⟨"t1", some "A", "bought", some 50, some 1, true, false, none, none,
    none, none, false, none, none⟩

/-- A `bought` record that meets the sell condition (gain 90% ≥ 6%). -/
def c3S2 : Stock :=
  ⟨"t2", some "B", "bought", some 50, some 1, true, false, none, none,
    none, none, false, none, none⟩

/-- Environment faulting on symbol `A`, healthy for everything else. -/
def c3Env : String → DailyOutcome :=
  fun sym => if sym = "A" then .fault else .data [100, 80, 95]

/-- C3 counterexample: in `mark_to_sell_eod` a fault on the first record
aborts the whole batch — the second record meets the sell condition
(`markCheck = ok true`) yet the store is returned unchanged, so the
fault is not contained at the record boundary. -/
theorem markToSellEod_fault_aborts_cx :
    markCheck c3Env c3S2 = .ok true ∧
      markToSellEod c3Env [c3S1, c3S2] = ([c3S1, c3S2], true) := by
  constructor
  · simp [markCheck, c3S2, c3Env, checkStockForToSell]
    norm_num
  · simp [markToSellEod, boughtBatch, c3S1, c3S2, markGo, markCheck, c3Env,
      checkStockForToSell]

/-- C3 (amended): per-record fault isolation holds only for the batch
entry decision (`evaluate_and_buy` catches per-record faults, so every
record of the batch yields an outcome whatever the environment does); in
exit marking, exit execution and shortlisting an unexpected fault while
processing one record aborts processing of the remaining records of the
batch, the fault being caught only at the operation boundary. -/
theorem perRecordIsolation_entry_only :
    (∀ (cap : ℚ) (env : String → IntradayOutcome) (store : List Stock),
      (buyShortlisted cap env store).boughtSyms.length
        + (buyShortlisted cap env store).ntSyms.length
        = (shortlistBatch store).length)
    ∧ (∀ (env : String → DailyOutcome) (store : List Stock) (s : Stock)
        (rest : List Stock), boughtBatch store = s :: rest →
        markCheck env s = .error () →
        markToSellEod env store = (store, true))
    ∧ (∀ (env : String → PriceOutcome) (store : List Stock) (s : Stock)
        (rest : List Stock) (sym : String), toSellBatch store = s :: rest →
        s.symbol = some sym → env sym = .fault →
        executeSellNextDay env store = (store, true))
    ∧ (∀ (idx : List ℚ) (today : String) (rows : List ScrapeRow)
        (insF : ℕ → Bool) (store : List Stock) (c : Stock)
        (rest : List Stock), isNiftyAbove50Ema idx = true →
        rows.map (mkCandidate today) = c :: rest →
        existsDup store c = false → insF 0 = true →
        updateShortlist idx today rows insF store = (store, true)) := by
  refine ⟨?_, ?_, ?_, ?_⟩
  · intro cap env store
    exact buyGo_counts cap env (shortlistBatch store) store
  · intro env store s rest hb hc
    simp only [markToSellEod, hb, markGo, hc]
  · intro env store s rest sym hb hs hf
    simp [executeSellNextDay, hb, sellGo, sellStock, hs, hf]
  · intro idx today rows insF store c rest hidx hmap hdup hins
    simp only [updateShortlist, hidx, Bool.true_eq_false, if_false, hmap,
      shortlistGo, hdup, Bool.false_eq_true, hins, if_true]

/-- A `to_sell` record for the exit-execution abort witness. -/
def c3S3 : Stock :=
  ⟨"t3", some "C", "to_sell", some 50, some 1, true, false, none, none,
    none, none, false, none, none⟩

theorem perRecordIsolation_entry_only_witness :
    ((buyShortlisted 1000 (fun _ => IntradayOutcome.fault) [c1S]).boughtSyms.length
      + (buyShortlisted 1000 (fun _ => IntradayOutcome.fault) [c1S]).ntSyms.length
      = 1)
    ∧ markToSellEod c3Env [c3S1, c3S2] = ([c3S1, c3S2], true)
    ∧ executeSellNextDay (fun _ => PriceOutcome.fault) [c3S3] = ([c3S3], true)
    ∧ updateShortlist [100, 200] "2030-01-01" [⟨"r1", some "Q"⟩]
        (fun _ => true) [] = ([], true) := by
  refine ⟨?_, ?_, ?_, ?_⟩
  · have h := perRecordIsolation_entry_only.1 1000
      (fun _ => IntradayOutcome.fault) [c1S]
    rw [h]
    simp [shortlistBatch, show c1S.status = "shortlisted" from rfl]
  · exact perRecordIsolation_entry_only.2.1 c3Env [c3S1, c3S2] c3S1 [c3S2]
      (by simp [boughtBatch, c3S1, c3S2])
      (by simp [markCheck, c3S1, c3Env, checkStockForToSell])
  · exact perRecordIsolation_entry_only.2.2.1 (fun _ => PriceOutcome.fault)
      [c3S3] c3S3 [] "C" (by simp [toSellBatch, c3S3]) rfl rfl
  · exact perRecordIsolation_entry_only.2.2.2 [100, 200] "2030-01-01"
      [⟨"r1", some "Q"⟩] (fun _ => true) [] (mkCandidate "2030-01-01" ⟨"r1", some "Q"⟩)
      [] (by simp [isNiftyAbove50Ema, emaNoAdjustLast]; norm_num) rfl rfl rfl

/-- A `bought` record for the C4 counterexample (bought at 95). -/
def c4S : Stock :=
  ⟨"m1", some "A", "bought", some 95, some 1, true, false, none, none,
    none, none, false, none, none⟩

/-- C4 counterexample: on the closes `[100, 80, 95]` with buy price 95,
the recursive (`adjust=False`) 50-EMA the claim describes is ≈ 99.05, so
the claim demands a transition to `to_sell` (`specSellCond = true`); the
code computes the pandas-default adjusted 50-EMA ≈ 91.60, finds the
close above it and a gain of 0%, and leaves the record `bought`. -/
theorem checkStockForToSell_recursiveEma_cx :
    checkStockForToSell (some 95) (.data [100, 80, 95]) = .ok false ∧
      specSellCond 95 [100, 80, 95] = true ∧
      markToSellEod (fun _ => .data [100, 80, 95]) [c4S] = ([c4S], false) := by
  have hchk : checkStockForToSell (some 95) (.data [100, 80, 95]) = .ok false := by
    simp [checkStockForToSell, emaAdjustLast]
    norm_num
  refine ⟨hchk, ?_, ?_⟩
  · simp [specSellCond, emaNoAdjustLast]
    norm_num
  · simp [markToSellEod, boughtBatch, c4S, markGo, markCheck, hchk]

/-- C4 (amended): the end-of-day exit marking transitions a `bought`
record to `to_sell` iff, over the fetched daily closes, the latest close
is below the latest 50-EMA — computed with pandas' default *adjusted*
exponential weighting (normalized weights `(1-a)^i`), not the recursive
seed-first form — or the gain over `buy_price` is at least 6 percent;
records meeting neither condition, records with missing price data and
records with missing `buy_price` remain `bought`. -/
theorem markToSellEod_adjustedEma_spec :
    (∀ (bp : ℚ) (closes : List ℚ), closes ≠ [] → bp ≠ 0 →
      checkStockForToSell (some bp) (.data closes) =
        .ok (decide (closes.getLastD 0 < emaAdjustLast 50 closes)
          || decide ((closes.getLastD 0 - bp) / bp * 100 ≥ 6)))
    ∧ (∀ bp : Option ℚ, checkStockForToSell bp (.data []) = .ok false)
    ∧ (∀ closes : List ℚ, checkStockForToSell none (.data closes) = .ok false)
    ∧ (∀ (env : String → DailyOutcome) (store : List Stock),
        (store.map Stock.sid).Nodup →
        (store.filter (fun s => s.status = "bought")).length ≤ 100 →
        (∀ s ∈ boughtBatch store, markCheck env s ≠ .error ()) →
        markToSellEod env store =
          (store.map (fun b =>
            if b.status = "bought" ∧ markTrue env b = true then setToSell b
            else b), false)) := by
  refine ⟨?_, ?_, ?_, ?_⟩
  · intro bp closes h1 h2
    cases closes with
    | nil => exact absurd rfl h1
    | cons x xs => simp [checkStockForToSell, h2]
  · intro bp
    simp [checkStockForToSell]
  · intro closes
    cases closes <;> rfl
  · intro env store hnd hlen hnf
    have hbatch : boughtBatch store =
        store.filter (fun s => s.status = "bought") := by
      simp only [boughtBatch]
      exact List.take_of_length_le hlen
    have hspec := markGo_spec env (boughtBatch store) store hnd
      (batch_nodup _ store hnd) hnf
    show markGo env (boughtBatch store) store = _
    rw [hspec]
    refine congrArg (fun l => (l, false)) ?_
    refine List.map_congr_left ?_
    intro b hbmem
    by_cases hb : b.status = "bought" ∧ markTrue env b = true
    · rw [if_pos hb, if_pos]
      refine List.any_eq_true.mpr ⟨b, ?_, by simp [hb.2]⟩
      rw [hbatch]
      exact List.mem_filter.mpr ⟨hbmem, by simp [hb.1]⟩
    · rw [if_neg hb, if_neg]
      intro hany
      obtain ⟨s, hsmem, hpred⟩ := List.any_eq_true.mp hany
      have hsb := @batch_mem (fun s => decide (s.status = "bought")) store s
        (by simpa [boughtBatch] using hsmem)
      have hsid : s.sid = b.sid := by
        have := (Bool.and_eq_true _ _).mp hpred
        simpa using this.1
      have hseq : s = b := eq_of_nodup_sid hnd hsb.1 hbmem hsid
      refine hb ⟨?_, ?_⟩
      · rw [← hseq]
        simpa using hsb.2
      · have := (Bool.and_eq_true _ _).mp hpred
        rw [← hseq]
        exact this.2

/-- A `bought` record matching the spec's exit-marking example (bought
at 100, latest close 107: gain 7% ≥ 6%). -/
def c4W : Stock :=
  ⟨"m2", some "A", "bought", some 100, some 1, true, false, none, none,
    none, none, false, none, none⟩

theorem markToSellEod_adjustedEma_spec_witness :
    markToSellEod (fun _ => DailyOutcome.data [100, 107]) [c4W]
      = ([setToSell c4W], false) := by
  have h := markToSellEod_adjustedEma_spec.2.2.2
    (fun _ => DailyOutcome.data [100, 107]) [c4W] (by simp)
    (by simp [c4W])
    (by
      intro s hs
      simp [boughtBatch, c4W] at hs
      rw [hs]
      simp [markCheck, c4W, checkStockForToSell])
  rw [h]
  have hcond : c4W.status = "bought" ∧
      markTrue (fun _ => DailyOutcome.data [100, 107]) c4W = true := by
    refine ⟨rfl, ?_⟩
    simp [markTrue, markCheck, c4W, checkStockForToSell]
    norm_num
  simp [hcond]

/-- C9: under each of the four core batch operations a stored record's
status only moves along the state machine — unchanged, or
`shortlisted → bought`, `shortlisted → not_triggered`,
`bought → to_sell`, `to_sell → sold` (so `not_triggered` and `sold` are
never left, and every allowed move stays inside the five-status enum);
shortlisting only appends fresh records with status `shortlisted`. -/
theorem state_machine_invariant (cap : ℚ)
    (envI : String → IntradayOutcome) (envD : String → DailyOutcome)
    (envP : String → PriceOutcome) (idx : List ℚ) (today : String)
    (rows : List ScrapeRow) (insF : ℕ → Bool) (store : List Stock)
    (hnd : (store.map Stock.sid).Nodup) :
    List.Forall₂ transOk store (buyShortlisted cap envI store).store
    ∧ List.Forall₂ transOk store (markToSellEod envD store).1
    ∧ List.Forall₂ transOk store (executeSellNextDay envP store).1
    ∧ (∃ tail, (updateShortlist idx today rows insF store).1 = store ++ tail
        ∧ ∀ r ∈ tail, r.status = "shortlisted")
    ∧ (∀ s t, allowedTrans s t = true → s ∈ fiveStatuses → t ∈ fiveStatuses)
    ∧ (∀ t, allowedTrans "not_triggered" t = true → t = "not_triggered")
    ∧ (∀ t, allowedTrans "sold" t = true → t = "sold") := by
  refine ⟨?_, ?_, ?_, ?_, ?_, ?_, ?_⟩
  · refine buyGo_allowed cap envI store hnd (shortlistBatch store) store
      ?_ (transOk_refl store)
    intro s hs
    have h := batch_mem (show s ∈ (store.filter _).take 100 from hs)
    exact ⟨h.1, by simpa using h.2⟩
  · refine markGo_allowed envD store hnd (boughtBatch store) store
      ?_ (transOk_refl store)
    intro s hs
    have h := batch_mem (show s ∈ (store.filter _).take 100 from hs)
    exact ⟨h.1, by simpa using h.2⟩
  · refine sellGo_allowed envP store hnd (toSellBatch store) store
      ?_ (transOk_refl store)
    intro s hs
    have h := batch_mem (show s ∈ (store.filter _).take 100 from hs)
    exact ⟨h.1, by simpa using h.2⟩
  · by_cases hidx : isNiftyAbove50Ema idx = false
    · exact ⟨[], by simp [updateShortlist, hidx], by simp⟩
    · obtain ⟨tail, ht, hm⟩ :=
        shortlistGo_append insF (rows.map (mkCandidate today)) 0 store
      refine ⟨tail, ?_, ?_⟩
      · simpa [updateShortlist, hidx] using ht
      · intro r hr
        obtain ⟨row, _, hrow⟩ := List.mem_map.mp (hm r hr)
        rw [← hrow]
        rfl
  · intro s t h hs
    simp [allowedTrans] at h
    rcases h with ((h | h) | h) | h
    · rwa [h]
    · rcases h.2 with h2 | h2 <;> simp [fiveStatuses, h2]
    · simp [fiveStatuses, h.2]
    · simp [fiveStatuses, h.2]
  · intro t h
    simpa [allowedTrans] using h
  · intro t h
    simpa [allowedTrans] using h

theorem state_machine_invariant_witness :
    List.Forall₂ transOk [c1S]
        (buyShortlisted 1000 (fun _ => IntradayOutcome.nodata) [c1S]).store
    ∧ List.Forall₂ transOk [c3S1]
        (markToSellEod (fun _ => DailyOutcome.fault) [c3S1]).1 := by
  have h := state_machine_invariant 1000 (fun _ => IntradayOutcome.nodata)
    (fun _ => DailyOutcome.fault) (fun _ => PriceOutcome.fault) []
    "2030-01-01" [] (fun _ => false) [c1S] (by simp)
  have h2 := state_machine_invariant 1000 (fun _ => IntradayOutcome.nodata)
    (fun _ => DailyOutcome.fault) (fun _ => PriceOutcome.fault) []
    "2030-01-01" [] (fun _ => false) [c3S1] (by simp)
  exact ⟨h.1, h2.2.1⟩

end Autotrader
